import Mathlib

/-!
# Randomised collision detection of composite shapes (objects.cpp / objects.hpp)

A shallow embedding of the shape algebra of the collider: the leaf shapes `Disk` and
`Rectangle`, the combinators `Union` and `Transformation`, the moving body `MasterShape`
and the collision oracle `LogicalScene`.

Conventions of the embedding.

* `qreal` is idealised as a linearly ordered field `K` (exact arithmetic); the definitions
  are generic in `K`, so they run over `ℚ` and can be read over `ℝ`. Where rounding decides
  a statement (sampling a disk against its own containment test), the functions of `Disk`
  are given again over an arithmetic `Arith`, of which `F64.arith` is binary64 with rounding
  to nearest, each operation rounded on its own.
* The two global random sources (`RG.generateDouble()` and `rand()`) and the function-local
  static `flipACoin` of `Union::randomPoint` form an explicit state `Draws`, threaded through
  every sampling function. The draws still to come are finite lists; a sampling function
  returns `none` when the draws run out before it has finished (for instance when the
  rejection loop of `Disk::randomPoint` has refused every pair it was offered).
* The sine and cosine used by `QTransform::rotate` are a parameter `Trig K`.
* `RAND_MAX` is a parameter of the functions that call `rand()`.
* Bodies live at addresses; `advance` works on the map from addresses to bodies and on the
  global pointer `logical_scene`, which may be null. Bodies have no parent item.
-/

namespace Collider

/-! ## Qt value types -/

/-- A point of the plane with `qreal` coordinates (`QPointF`). -/
structure QPointF (K : Type) where
  x : K
  y : K
deriving DecidableEq

/-- A rectangle stored as top-left corner, width and height (`QRectF`). -/
structure QRectF (K : Type) where
  xp : K
  yp : K
  w : K
  h : K
deriving DecidableEq

/-- An affine `QTransform`: the point `(x, y)` is mapped to
`(m11*x + m21*y + dx, m12*x + m22*y + dy)`. -/
structure QTransform (K : Type) where
  m11 : K
  m12 : K
  m21 : K
  m22 : K
  dx : K
  dy : K
deriving DecidableEq

/-- Sine and cosine of an angle given in degrees, as `QTransform::rotate` obtains them from
the C library, with the three identities of exact trigonometry the development relies on. -/
structure Trig (K : Type) [LinearOrderedField K] where
  cosd : K → K
  sind : K → K
  cos_sq_add_sin_sq : ∀ a, cosd a * cosd a + sind a * sind a = 1
  cosd_neg : ∀ a, cosd (-a) = cosd a
  sind_neg : ∀ a, sind (-a) = -sind a

section Defs

variable {K : Type} [LinearOrderedField K]

/-- Embeds `QPointF::dotProduct`. -/
def QPointF.dotProduct (p q : QPointF K) : K :=
  p.x * q.x + p.y * q.y

/-- Embeds `operator*(const QPointF &, qreal)`. -/
def QPointF.scale (p : QPointF K) (c : K) : QPointF K :=
  ⟨p.x * c, p.y * c⟩

/-- Embeds `QRectF(const QPointF &topLeft, const QPointF &bottomRight)`. -/
def QRectF.ofCorners (topLeft bottomRight : QPointF K) : QRectF K :=
  ⟨topLeft.x, topLeft.y, bottomRight.x - topLeft.x, bottomRight.y - topLeft.y⟩

/-- Embeds `QRectF::x()`: the x-coordinate of the left edge. -/
def QRectF.x (r : QRectF K) : K := r.xp

/-- Embeds `QRectF::y()`: the y-coordinate of the top edge. -/
def QRectF.y (r : QRectF K) : K := r.yp

/-- Embeds `QRectF::contains(const QPointF &)`: membership in the closed rectangle, after
normalising a negative width or height; a rectangle of zero width or height contains
nothing. -/
def QRectF.contains (r : QRectF K) (p : QPointF K) : Bool :=
  let l := if r.w < 0 then r.xp + r.w else r.xp
  let rt := if r.w < 0 then r.xp else r.xp + r.w
  if l = rt then false
  else if p.x < l ∨ p.x > rt then false
  else
    let t := if r.h < 0 then r.yp + r.h else r.yp
    let b := if r.h < 0 then r.yp else r.yp + r.h
    if t = b then false
    else if p.y < t ∨ p.y > b then false
    else true

/-- The default-constructed `QTransform()`. -/
def QTransform.identity : QTransform K :=
  ⟨1, 0, 0, 1, 0, 0⟩

/-- Embeds `QTransform::map(const QPointF &)` for an affine matrix. -/
def QTransform.map (t : QTransform K) (p : QPointF K) : QPointF K :=
  ⟨t.m11 * p.x + t.m21 * p.y + t.dx, t.m12 * p.x + t.m22 * p.y + t.dy⟩

/-- Embeds `QTransform::translate(dx, dy)`: moves the coordinate system, i.e. the translation
acts on a point before the matrix built so far. -/
def QTransform.translate (t : QTransform K) (tx ty : K) : QTransform K :=
  { t with dx := t.dx + (tx * t.m11 + ty * t.m21), dy := t.dy + (ty * t.m22 + tx * t.m12) }

/-- Embeds `QTransform::rotate(a)` about the z axis, `a` in degrees: the rotation acts on a
point before the matrix built so far. Qt takes sine and cosine from the C library, except at
the right angles, where it writes their exact values. -/
def QTransform.rotate (T : Trig K) (t : QTransform K) (a : K) : QTransform K :=
  let sina := T.sind a
  let cosa := T.cosd a
  { t with
    m11 := cosa * t.m11 + sina * t.m21
    m12 := cosa * t.m12 + sina * t.m22
    m21 := -sina * t.m11 + cosa * t.m21
    m22 := -sina * t.m12 + cosa * t.m22 }

/-- Embeds `QTransform::fromTranslate(dx, dy)`. -/
def QTransform.fromTranslate (tx ty : K) : QTransform K :=
  ⟨1, 0, 0, 1, tx, ty⟩

/-- Embeds `operator*` of two affine matrices: `(a * b).map p = b.map (a.map p)`. -/
def QTransform.mul (a b : QTransform K) : QTransform K :=
  ⟨a.m11 * b.m11 + a.m12 * b.m21, a.m11 * b.m12 + a.m12 * b.m22,
   a.m21 * b.m11 + a.m22 * b.m21, a.m21 * b.m12 + a.m22 * b.m22,
   a.dx * b.m11 + a.dy * b.m21 + b.dx, a.dx * b.m12 + a.dy * b.m22 + b.dy⟩

/-- Embeds `QTransform::determinant()` of an affine matrix. -/
def QTransform.determinant (t : QTransform K) : K :=
  t.m11 * t.m22 - t.m12 * t.m21

/-- Embeds `QTransform::inverted()` of an affine matrix: the adjugate divided by the
determinant, and the identity when the determinant is zero. -/
def QTransform.inverted (t : QTransform K) : QTransform K :=
  let dtr := t.determinant
  if dtr = 0 then QTransform.identity
  else
    let dinv := 1 / dtr
    ⟨t.m22 * dinv, -t.m12 * dinv, -t.m21 * dinv, t.m11 * dinv,
     (t.m21 * t.dy - t.m22 * t.dx) * dinv, (t.m12 * t.dx - t.m11 * t.dy) * dinv⟩

/-! ## The random sources -/

/-- The state of the random sources: the values `RG.generateDouble()` will return, the values
`rand()` will return, and the function-local static `flipACoin` of `Union::randomPoint`
(`none` until the first call has run its initialiser). -/
structure Draws (K : Type) where
  doubles : List K
  ints : List Nat
  flipACoin : Option Bool
deriving DecidableEq

/-! ## class Disk -/

/-- The `do ... while` loop of `Disk::randomPoint` on the list of coming `generateDouble()`
values, in exact arithmetic: each round takes two values, the first for the abscissa; a pair
outside the unit disk is dropped and the loop goes round again. `Disk.loopIn` below is the
same loop over a given arithmetic and for either order of the two values. -/
def Disk.loop : List K → Option (QPointF K × List K)
  | g1 :: g2 :: rest =>
    if (g1 * 2 - 1) * (g1 * 2 - 1) + (g2 * 2 - 1) * (g2 * 2 - 1) > 1 then Disk.loop rest
    else some (⟨g1 * 2 - 1, g2 * 2 - 1⟩, rest)
  | _ => none

/-- Embeds `Disk::randomPoint`: the point left by the loop, scaled by `_r`. -/
def Disk.randomPoint (r : K) (s : Draws K) : Option (QPointF K × Draws K) :=
  match Disk.loop s.doubles with
  | none => none
  | some (p, rest) => some (p.scale r, { s with doubles := rest })

/-- Embeds `Disk::isInside`. -/
def Disk.isInside (r : K) (p : QPointF K) : Bool :=
  decide (QPointF.dotProduct p p ≤ r * r)

/-- Embeds `Disk::boundingRect`. -/
def Disk.boundingRect (r : K) : QRectF K :=
  ⟨-r, -r, 2 * r, 2 * r⟩

/-! ## class Rectangle -/

/-- Embeds `Rectangle::randomPoint`: `rand()/RAND_MAX` is a division of two `int`s, whose
quotient is then converted to `qreal`; the first call of `rand()` is taken for the
abscissa. -/
def Rectangle.randomPoint (RAND_MAX : Nat) (rect : QRectF K) (s : Draws K) :
    Option (QPointF K × Draws K) :=
  match s.ints with
  | v1 :: v2 :: rest =>
    some (⟨((v1 / RAND_MAX : Nat) : K) * rect.x, ((v2 / RAND_MAX : Nat) : K) * rect.y⟩,
      { s with ints := rest })
  | _ => none

/-- Embeds `Rectangle::isInside`. -/
def Rectangle.isInside (rect : QRectF K) (p : QPointF K) : Bool :=
  decide (0 ≤ rect.x) && decide (p.x ≤ rect.x) && decide (0 ≤ p.y) && decide (p.y ≤ rect.y)

/-- Embeds `Rectangle::boundingRect`. -/
def Rectangle.boundingRect (rect : QRectF K) : QRectF K := rect

/-! ## The shape tree: Disk, Rectangle, Union, Transformation -/

/-- The `GraphicalShape` objects a body can be made of: a `Disk` of radius `_r`, a
`Rectangle` holding `_rect`, a `Union` of `_f1` and `_f2`, a `Transformation` of `_f` with
offset `_dx` and angle `_angle`. -/
inductive GraphicalShape (K : Type) where
  | disk (r : K) : GraphicalShape K
  | rectangle (rect : QRectF K) : GraphicalShape K
  | union (f1 f2 : GraphicalShape K) : GraphicalShape K
  | transformation (f : GraphicalShape K) (dx : QPointF K) (angle : K) : GraphicalShape K

/-- Embeds `Rectangle::Rectangle(x, y, master_shape)`: `_rect` is `QRectF(x, y)`. -/
def Rectangle (x y : QPointF K) : GraphicalShape K :=
  GraphicalShape.rectangle (QRectF.ofCorners x y)

/-- The value given to the static `flipACoin` by its initialiser
`(rand() / RAND_MAX) > 0.5`, for the value `v` returned by `rand()`. -/
def coin (RAND_MAX : Nat) (v : Nat) : Bool :=
  decide ((1 / 2 : K) < ((v / RAND_MAX : Nat) : K))

/-- The virtual `randomPoint` over the shape tree; the `Union` case initialises the static
`flipACoin` on its first execution and only reads it afterwards. -/
def GraphicalShape.randomPoint (T : Trig K) (RAND_MAX : Nat) :
    GraphicalShape K → Draws K → Option (QPointF K × Draws K)
  | .disk r, s => Disk.randomPoint r s
  | .rectangle rect, s => Rectangle.randomPoint RAND_MAX rect s
  | .union f1 f2, s =>
    match s.flipACoin with
    | some c => if c then f1.randomPoint T RAND_MAX s else f2.randomPoint T RAND_MAX s
    | none =>
      match s.ints with
      | [] => none
      | v :: rest =>
        if coin (K := K) RAND_MAX v then
          f1.randomPoint T RAND_MAX { s with ints := rest, flipACoin := some true }
        else
          f2.randomPoint T RAND_MAX { s with ints := rest, flipACoin := some false }
  | .transformation f dx angle, s =>
    match f.randomPoint T RAND_MAX s with
    | none => none
    | some (orgRandPoint, s1) =>
      some ((((QTransform.identity).rotate T angle).translate dx.x dx.y).map orgRandPoint, s1)

/-- The virtual `isInside` over the shape tree. -/
def GraphicalShape.isInside (T : Trig K) : GraphicalShape K → QPointF K → Bool
  | .disk r, p => Disk.isInside r p
  | .rectangle rect, p => Rectangle.isInside rect p
  | .union f1 f2, p => f1.isInside T p || f2.isInside T p
  | .transformation f dx angle, p =>
    f.isInside T
      ((((QTransform.identity).translate (-1 * dx.x) (-1 * dx.y)).rotate T (-1 * angle)).map p)

/-! ## class MasterShape -/

/-- Embeds `MasterShape::State`. -/
inductive State where
  | Ok
  | Collision
deriving DecidableEq

/-- A `MasterShape` at the root of the graphics scene: the position and rotation (in degrees)
it has as a `QGraphicsItem`, the attached shape `_f` (the `assert( _f != 0 )` of the sampling
functions is built into the type) and the collision state. -/
structure MasterShape (K : Type) where
  pos : QPointF K
  rotation : K
  _f : GraphicalShape K
  _state : State

/-- The matrix from item coordinates to parent coordinates of a `QGraphicsItem` with the
default origin and scale: the rotation, then the translation by `pos()`. -/
def MasterShape.transformToParent (T : Trig K) (m : MasterShape K) : QTransform K :=
  ((QTransform.identity).rotate T m.rotation).mul (QTransform.fromTranslate m.pos.x m.pos.y)

/-- Embeds `QGraphicsItem::mapToParent`. -/
def MasterShape.mapToParent (T : Trig K) (m : MasterShape K) (p : QPointF K) : QPointF K :=
  (m.transformToParent T).map p

/-- Embeds `QGraphicsItem::mapFromParent`. -/
def MasterShape.mapFromParent (T : Trig K) (m : MasterShape K) (p : QPointF K) : QPointF K :=
  (m.transformToParent T).inverted.map p

/-- Embeds `MasterShape::randomPoint`. -/
def MasterShape.randomPoint (T : Trig K) (RAND_MAX : Nat) (m : MasterShape K) (s : Draws K) :
    Option (QPointF K × Draws K) :=
  match m._f.randomPoint T RAND_MAX s with
  | none => none
  | some (p, s1) => some (m.mapToParent T p, s1)

/-- Embeds `MasterShape::isInside`. -/
def MasterShape.isInside (T : Trig K) (m : MasterShape K) (p : QPointF K) : Bool :=
  m._f.isInside T (m.mapFromParent T p)

/-- Embeds `QGraphicsItem::setPos`, for a body at the root of the scene. -/
def MasterShape.setPos (m : MasterShape K) (p : QPointF K) : MasterShape K :=
  { m with pos := p }

/-- Embeds `QGraphicsItem::setRotation`. -/
def MasterShape.setRotation (m : MasterShape K) (angle : K) : MasterShape K :=
  { m with rotation := angle }

/-- Embeds `Asteroid::Asteroid(cok, cko, speed, r)`: a body in state `Ok`, at the origin and
not rotated, as a new `QGraphicsItem` is, whose shape is a `Disk` of radius `r`. -/
def Asteroid (r : K) : MasterShape K :=
  ⟨⟨0, 0⟩, 0, .disk r, .Ok⟩

/-- Embeds `SpaceTruck::SpaceTruck(cok, cko, speed)`: the union of the rectangle `d1` with the
union of the rectangles `d2` and `d3`. -/
def SpaceTruck : MasterShape K :=
  ⟨⟨0, 0⟩, 0,
    .union (Rectangle ⟨-80, -10⟩ ⟨0, 10⟩)
      (.union (Rectangle ⟨10, -10⟩ ⟨30, 10⟩) (Rectangle ⟨0, -3⟩ ⟨10, 3⟩)),
    .Ok⟩

/-! ## class LogicalScene -/

/-- A `MasterShape*`: an address, compared by identity. -/
abbrev Ptr := Nat

/-- Embeds `LogicalScene`: the registered bodies, by address, and the sample budget. -/
structure LogicalScene where
  formes : List Ptr
  nb_tested : Int

/-- The condition tested by one round of the loop of `LogicalScene::intersect(f1, f2)`:
`f2->isInside( f1->randomPoint() ) || f1->isInside( f2->randomPoint() )`, where `||` does not
evaluate its right operand once the left one holds. -/
def LogicalScene.trial (T : Trig K) (RAND_MAX : Nat) (f1 f2 : MasterShape K) (s : Draws K) :
    Option (Bool × Draws K) :=
  match f1.randomPoint T RAND_MAX s with
  | none => none
  | some (p1, s1) =>
    if f2.isInside T p1 then some (true, s1)
    else
      match f2.randomPoint T RAND_MAX s1 with
      | none => none
      | some (p2, s2) => some (f1.isInside T p2, s2)

/-- The `for` loop of `LogicalScene::intersect(f1, f2)` with `n` rounds left. -/
def LogicalScene.intersectLoop (T : Trig K) (RAND_MAX : Nat) (f1 f2 : MasterShape K) :
    Nat → Draws K → Option (Bool × Draws K)
  | 0, s => some (false, s)
  | n + 1, s =>
    match LogicalScene.trial T RAND_MAX f1 f2 s with
    | none => none
    | some (true, s1) => some (true, s1)
    | some (false, s1) => LogicalScene.intersectLoop T RAND_MAX f1 f2 n s1

/-- Embeds `LogicalScene::intersect(MasterShape* f1, MasterShape* f2)`: the counter `i` runs
from 0 while `i < nb_tested`, so a budget that is not positive gives no round at all. -/
def LogicalScene.intersect (T : Trig K) (RAND_MAX : Nat) (scene : LogicalScene)
    (f1 f2 : MasterShape K) (s : Draws K) : Option (Bool × Draws K) :=
  LogicalScene.intersectLoop T RAND_MAX f1 f2 scene.nb_tested.toNat s

/-- The range-for loop of `LogicalScene::intersect(MasterShape* f1)` over the entries of
`formes` still to visit; `heap` gives the body stored at an address. -/
def LogicalScene.intersect1Loop (T : Trig K) (RAND_MAX : Nat) (scene : LogicalScene)
    (heap : Ptr → MasterShape K) (f1 : Ptr) : List Ptr → Draws K → Option (Bool × Draws K)
  | [], s => some (false, s)
  | f :: fs, s =>
    if f ≠ f1 then
      match LogicalScene.intersect T RAND_MAX scene (heap f) (heap f1) s with
      | none => none
      | some (true, s1) => some (true, s1)
      | some (false, s1) => LogicalScene.intersect1Loop T RAND_MAX scene heap f1 fs s1
    else LogicalScene.intersect1Loop T RAND_MAX scene heap f1 fs s

/-- Embeds `LogicalScene::intersect(MasterShape* f1)`. -/
def LogicalScene.intersect1 (T : Trig K) (RAND_MAX : Nat) (scene : LogicalScene)
    (heap : Ptr → MasterShape K) (f1 : Ptr) (s : Draws K) : Option (Bool × Draws K) :=
  LogicalScene.intersect1Loop T RAND_MAX scene heap f1 scene.formes s

/-! ## advance -/

/-- The constant `IMAGE_SIZE` of objects.hpp. -/
def IMAGE_SIZE : Int := 600

/-- The constant `SZ_BD` of objects.hpp. -/
def SZ_BD : Int := 100

/-- The dynamic class of a body: `MasterShape` itself or one of its four subclasses. -/
inductive BodyClass where
  | MasterShape
  | Asteroid
  | NiceAsteroid
  | SpaceTruck
  | Enterprise
deriving DecidableEq

/-- A body of the scene: its dynamic class, the member `_speed` of the subclasses and its
`MasterShape` part. The member `_t` of a `NiceAsteroid` is the `Transformation` at the root
of `_f`; what lies under `_t` plays no part in `advance`. -/
structure Body (K : Type) where
  cls : BodyClass
  _speed : K
  master : MasterShape K

/-- Stores `m` as the `MasterShape` part of the body at address `self`. -/
def setMaster (world : Ptr → Body K) (self : Ptr) (m : MasterShape K) : Ptr → Body K :=
  Function.update world self { world self with master := m }

/-- Embeds `QGraphicsItem::scenePos` for a body without parent item, for which scene
coordinates are parent coordinates. -/
def MasterShape.scenePos (m : MasterShape K) : QPointF K := m.pos

/-- Part (I) of `MasterShape::advance`, for a body without parent item: the position `p` is
read once, then the test on `p.x()` and the test on `p.y()` each call `setPos` with a point
built from `p`. -/
def MasterShape.keepInScene (m : MasterShape K) : MasterShape K :=
  let p := m.scenePos
  let m1 :=
    if p.x < ((-SZ_BD : Int) : K) then m.setPos ⟨((IMAGE_SIZE + SZ_BD - 1 : Int) : K), p.y⟩
    else if p.x > ((IMAGE_SIZE + SZ_BD : Int) : K) then m.setPos ⟨((-SZ_BD + 1 : Int) : K), p.y⟩
    else m
  if p.y < ((-SZ_BD : Int) : K) then m1.setPos ⟨p.x, ((IMAGE_SIZE + SZ_BD - 1 : Int) : K)⟩
  else if p.y > ((IMAGE_SIZE + SZ_BD : Int) : K) then m1.setPos ⟨p.x, ((-SZ_BD + 1 : Int) : K)⟩
  else m1

/-- Embeds `MasterShape::advance(int step)` on the body at address `self`; `logical_scene` is
the global pointer of that name, `none` while it is null, and dereferencing it then ends the
run without a result. -/
def MasterShape.advance (T : Trig K) (RAND_MAX : Nat) (logical_scene : Option LogicalScene)
    (world : Ptr → Body K) (self : Ptr) (step : Int) (s : Draws K) :
    Option ((Ptr → Body K) × Draws K) :=
  if step = 0 then some (world, s)
  else
    let world1 := setMaster world self (world self).master.keepInScene
    match logical_scene with
    | none => none
    | some scene =>
      match scene.intersect1 T RAND_MAX (fun f => (world1 f).master) self s with
      | none => none
      | some (hit, s1) =>
        some (setMaster world1 self
          { (world1 self).master with _state := if hit then State.Collision else State.Ok }, s1)

/-- The statement `setPos( mapToParent( _speed, 0.0 ) )` shared by the subclasses. -/
def moveForward (T : Trig K) (world : Ptr → Body K) (self : Ptr) : Ptr → Body K :=
  setMaster world self
    ((world self).master.setPos ((world self).master.mapToParent T ⟨(world self)._speed, 0⟩))

/-- Embeds `Asteroid::advance(int step)`. -/
def Asteroid.advance (T : Trig K) (RAND_MAX : Nat) (logical_scene : Option LogicalScene)
    (world : Ptr → Body K) (self : Ptr) (step : Int) (s : Draws K) :
    Option ((Ptr → Body K) × Draws K) :=
  if step = 0 then some (world, s)
  else MasterShape.advance T RAND_MAX logical_scene (moveForward T world self) self step s

/-- The statement `_t->setAngle( _t->_angle + 2.0 )` on the shape `_t` of a
`NiceAsteroid`. -/
def turnInner : GraphicalShape K → GraphicalShape K
  | .transformation f dx angle => .transformation f dx (angle + 2)
  | f => f

/-- Embeds `NiceAsteroid::advance(int step)`. -/
def NiceAsteroid.advance (T : Trig K) (RAND_MAX : Nat) (logical_scene : Option LogicalScene)
    (world : Ptr → Body K) (self : Ptr) (step : Int) (s : Draws K) :
    Option ((Ptr → Body K) × Draws K) :=
  if step = 0 then some (world, s)
  else
    let world1 := moveForward T world self
    let world2 := setMaster world1 self
      { (world1 self).master with _f := turnInner (world1 self).master._f }
    MasterShape.advance T RAND_MAX logical_scene world2 self step s

/-- Embeds `SpaceTruck::advance(int step)`; in `rotation() + 1 % 360` the remainder is taken
of the literal 1 alone. -/
def SpaceTruck.advance (T : Trig K) (RAND_MAX : Nat) (logical_scene : Option LogicalScene)
    (world : Ptr → Body K) (self : Ptr) (step : Int) (s : Draws K) :
    Option ((Ptr → Body K) × Draws K) :=
  if step = 0 then some (world, s)
  else
    match MasterShape.advance T RAND_MAX logical_scene (moveForward T world self) self step s with
    | none => none
    | some (world1, s1) =>
      some (setMaster world1 self
        ((world1 self).master.setRotation
          ((world1 self).master.rotation + (((1 : Int) % 360 : Int) : K))), s1)

/-- Embeds `Enterprise::advance(int step)`. -/
def Enterprise.advance (T : Trig K) (RAND_MAX : Nat) (logical_scene : Option LogicalScene)
    (world : Ptr → Body K) (self : Ptr) (step : Int) (s : Draws K) :
    Option ((Ptr → Body K) × Draws K) :=
  if step = 0 then some (world, s)
  else MasterShape.advance T RAND_MAX logical_scene (moveForward T world self) self step s

/-- The virtual call `advance(step)` on the body at address `self`, dispatched on its
class. -/
def Body.advance (T : Trig K) (RAND_MAX : Nat) (logical_scene : Option LogicalScene)
    (world : Ptr → Body K) (self : Ptr) (step : Int) (s : Draws K) :
    Option ((Ptr → Body K) × Draws K) :=
  match (world self).cls with
  | .MasterShape => MasterShape.advance T RAND_MAX logical_scene world self step s
  | .Asteroid => Asteroid.advance T RAND_MAX logical_scene world self step s
  | .NiceAsteroid => NiceAsteroid.advance T RAND_MAX logical_scene world self step s
  | .SpaceTruck => SpaceTruck.advance T RAND_MAX logical_scene world self step s
  | .Enterprise => Enterprise.advance T RAND_MAX logical_scene world self step s

end Defs

/-! ## A computable instance over the rationals -/

/-- A computable `Trig ℚ`: the rational parametrisation of the unit circle (the angle `a`
is sent to the point of parameter `a`). It gives cosine 1 and sine 0 at angle 0, as exact
trigonometry does. -/
def ratTrig : Trig ℚ where
  cosd a := (1 - a * a) / (1 + a * a)
  sind a := 2 * a / (1 + a * a)
  cos_sq_add_sin_sq a := by
    have h : (1 + a * a) ≠ 0 := by nlinarith [mul_self_nonneg a]
    field_simp
    ring
  cosd_neg a := by simp
  sind_neg a := by
    simp only [neg_mul_neg, mul_neg]
    ring


/-! ## The disk over a given arithmetic

The functions of `Disk` once more, with the arithmetic of `qreal` and the order in which the
two arguments of `QPointF( ..., ... )` are evaluated as parameters: C++ leaves that order
open. With exact arithmetic and the first draw taken for the abscissa these are
`Disk.randomPoint` and `Disk.isInside` above; with `F64.arith` they compute as the program
does on binary64. -/

/-- The operations `Disk` applies to `qreal` values: sum, difference, product (`none` when
the result is not a finite value; the functions below then give `none` and follow the run no
further), the comparisons `<=` and `<`, the constants 1.0 and 2.0. -/
structure Arith (α : Type) where
  add : α → α → Option α
  sub : α → α → Option α
  mul : α → α → Option α
  le : α → α → Bool
  lt : α → α → Bool
  one : α
  two : α

/-- Exact arithmetic in an ordered field: no rounding, every result finite. -/
def Arith.exact (K : Type) [LinearOrderedField K] : Arith K where
  add a b := some (a + b)
  sub a b := some (a - b)
  mul a b := some (a * b)
  le a b := decide (a ≤ b)
  lt a b := decide (a < b)
  one := 1
  two := 2

/-- A finite binary64 value `x` is held as the integer `x * 2 ^ 2148`: every finite double
is a multiple of `2 ^ (-1074)`, so the doubles, their sums and their products are integers
on this scale. The two zeros are not told apart; the operations used here do not tell them
apart either. -/
def F64.scale : Nat := 2148

/-- The position of the leading bit of `a`, for `0 < a < 2 ^ 8192`, found by bisection. -/
def F64.exponent (a : Nat) : Nat :=
  [4096, 2048, 1024, 512, 256, 128, 64, 32, 16, 8, 4, 2, 1].foldl
    (fun k b => if 2 ^ (k + b) ≤ a then k + b else k) 0

/-- Rounding of an exact result to binary64, to nearest with ties to the even significand:
the spacing `q` of the doubles around the value is `2 ^ (-1074)` below `2 ^ (-1022)` and
`2 ^ (k - 52)` for a leading bit at `k`; the result is `none` when it rounds to an
infinity. -/
def F64.round (n : Int) : Option Int :=
  let a := n.natAbs
  let k := F64.exponent a
  let q := if k < F64.scale - 1022 then 2 ^ (F64.scale - 1074) else 2 ^ (k - 52)
  let lo := a / q
  let rem := a % q
  let up :=
    if 2 * rem < q then lo
    else if q < 2 * rem then lo + 1
    else if lo % 2 = 0 then lo
    else lo + 1
  let m := up * q
  if 2 ^ (F64.scale + 1024) ≤ m then none
  else some (if n < 0 then -(m : Int) else (m : Int))

/-- The double of value `m / 2 ^ k`, for `k ≤ 2148`. -/
def F64.ofDyadic (m : Int) (k : Nat) : Int :=
  m * ((2 ^ (F64.scale - k) : Nat) : Int)

/-- Arithmetic of binary64 on finite values: each operation gives the exact result,
rounded. -/
def F64.arith : Arith Int where
  add a b := F64.round (a + b)
  sub a b := F64.round (a - b)
  mul a b := F64.round (a * b / ((2 ^ F64.scale : Nat) : Int))
  le a b := decide (a ≤ b)
  lt a b := decide (a < b)
  one := F64.ofDyadic 1 0
  two := F64.ofDyadic 2 0

section DiskIn

variable {α : Type}

/-- Embeds `QPointF::dotProduct` over the arithmetic `A`: two products, then their sum. -/
def QPointF.dotProductIn (A : Arith α) (p q : QPointF α) : Option α :=
  match A.mul p.x q.x, A.mul p.y q.y with
  | some xx, some yy => A.add xx yy
  | _, _ => none

/-- The expression `RG.generateDouble() * 2.0 - 1.0` for the value `g` of
`generateDouble()`. -/
def Disk.coordinate (A : Arith α) (g : α) : Option α :=
  match A.mul g A.two with
  | some t => A.sub t A.one
  | none => none

/-- The `do ... while` loop of `Disk::randomPoint` over the arithmetic `A`; the first of the
two values of a round goes to the abscissa when `xFirst` holds and to the ordinate
otherwise. -/
def Disk.loopIn (A : Arith α) (xFirst : Bool) : List α → Option (QPointF α × List α)
  | g1 :: g2 :: rest =>
    match Disk.coordinate A g1, Disk.coordinate A g2 with
    | some c1, some c2 =>
      match QPointF.dotProductIn A (if xFirst then ⟨c1, c2⟩ else ⟨c2, c1⟩)
          (if xFirst then ⟨c1, c2⟩ else ⟨c2, c1⟩) with
      | some n =>
        if A.lt A.one n then Disk.loopIn A xFirst rest
        else some (if xFirst then ⟨c1, c2⟩ else ⟨c2, c1⟩, rest)
      | none => none
    | _, _ => none
  | _ => none

/-- Embeds `Disk::randomPoint` over the arithmetic `A`: the point left by the loop, each
coordinate multiplied by `_r`. -/
def Disk.randomPointIn (A : Arith α) (xFirst : Bool) (r : α) (s : Draws α) :
    Option (QPointF α × Draws α) :=
  match Disk.loopIn A xFirst s.doubles with
  | none => none
  | some (p, rest) =>
    match A.mul p.x r, A.mul p.y r with
    | some x, some y => some (⟨x, y⟩, { s with doubles := rest })
    | _, _ => none

/-- Embeds `Disk::isInside` over the arithmetic `A`. -/
def Disk.isInsideIn (A : Arith α) (r : α) (p : QPointF α) : Option Bool :=
  match QPointF.dotProductIn A p p, A.mul r r with
  | some d, some rr => some (A.le d rr)
  | _, _ => none

end DiskIn

/-! ## Descriptions used by the statements -/

section Descriptions

variable {K : Type} [LinearOrderedField K]

/-- A successful trial in the words of the specification, from the draws `t` to the draws
`t'`: the point sampled from `f1` lies in `f2`, or it does not and the point then sampled
from `f2` lies in `f1`. -/
def LogicalScene.Hit (T : Trig K) (RAND_MAX : Nat) (f1 f2 : MasterShape K)
    (t t' : Draws K) : Prop :=
  (∃ p1, f1.randomPoint T RAND_MAX t = some (p1, t') ∧ f2.isInside T p1 = true) ∨
  (∃ p1 t1 p2, f1.randomPoint T RAND_MAX t = some (p1, t1) ∧ f2.isInside T p1 = false ∧
    f2.randomPoint T RAND_MAX t1 = some (p2, t') ∧ f1.isInside T p2 = true)

/-- A failed trial in the words of the specification, from the draws `t` to the draws `t'`:
the point sampled from `f1` is not in `f2` and the point sampled from `f2` is not in `f1`. -/
def LogicalScene.Miss (T : Trig K) (RAND_MAX : Nat) (f1 f2 : MasterShape K)
    (t t' : Draws K) : Prop :=
  ∃ p1 t1 p2, f1.randomPoint T RAND_MAX t = some (p1, t1) ∧ f2.isInside T p1 = false ∧
    f2.randomPoint T RAND_MAX t1 = some (p2, t') ∧ f1.isInside T p2 = false

/-- A run of `i` failed trials in a row leads from the draws `t` to the draws `t'`. -/
def LogicalScene.Misses (T : Trig K) (RAND_MAX : Nat) (f1 f2 : MasterShape K) :
    Nat → Draws K → Draws K → Prop
  | 0, t, t' => t = t'
  | i + 1, t, t' =>
    ∃ t1, LogicalScene.Miss T RAND_MAX f1 f2 t t1 ∧ LogicalScene.Misses T RAND_MAX f1 f2 i t1 t'

/-- The call `intersect(a, b)` on the draws `s` and the call `intersect(b, a)` on the draws
`s'` sample the same points in each of `n` trials: in every trial the point drawn from `a`
is the same in both calls, and so is the point drawn from `b`. -/
def LogicalScene.SameSamples (T : Trig K) (RAND_MAX : Nat) (a b : MasterShape K) :
    Nat → Draws K → Draws K → Prop
  | 0, _, _ => True
  | n + 1, s, s' =>
    ∃ pa pb s1 s2 s1' s2',
      a.randomPoint T RAND_MAX s = some (pa, s1) ∧ b.randomPoint T RAND_MAX s1 = some (pb, s2) ∧
      b.randomPoint T RAND_MAX s' = some (pb, s1') ∧
      a.randomPoint T RAND_MAX s1' = some (pa, s2') ∧
      LogicalScene.SameSamples T RAND_MAX a b n s2 s2'

/-- The shape has no `Rectangle` leaf. -/
def GraphicalShape.rectFree : GraphicalShape K → Bool
  | .disk _ => true
  | .rectangle _ => false
  | .union f1 f2 => f1.rectFree && f2.rectFree
  | .transformation f _ _ => f.rectFree

end Descriptions

/-! ## Lemmas on the Qt transforms -/

section TransformLemmas

variable {K : Type} [LinearOrderedField K]

/-- The forward matrix of `Transformation::randomPoint` in coordinates. -/
theorem QTransform.map_rotate_translate (T : Trig K) (a tx ty : K) (p : QPointF K) :
    (((QTransform.identity).rotate T a).translate tx ty).map p =
      ⟨T.cosd a * (p.x + tx) - T.sind a * (p.y + ty),
       T.sind a * (p.x + tx) + T.cosd a * (p.y + ty)⟩ := by
  simp only [QTransform.map, QTransform.translate, QTransform.rotate, QTransform.identity]
  congr 1 <;> ring

/-- The backward matrix of `Transformation::isInside` in coordinates. -/
theorem QTransform.map_translate_rotate (T : Trig K) (a tx ty : K) (p : QPointF K) :
    (((QTransform.identity).translate (-1 * tx) (-1 * ty)).rotate T (-1 * a)).map p =
      ⟨T.cosd a * p.x + T.sind a * p.y - tx, -(T.sind a * p.x) + T.cosd a * p.y - ty⟩ := by
  simp only [QTransform.map, QTransform.translate, QTransform.rotate, QTransform.identity,
    neg_one_mul, T.cosd_neg, T.sind_neg]
  congr 1 <;> ring

/-- The matrix to parent coordinates of a body has determinant one. -/
theorem MasterShape.determinant_transformToParent (T : Trig K) (m : MasterShape K) :
    (m.transformToParent T).determinant = 1 := by
  have h := T.cos_sq_add_sin_sq m.rotation
  simp only [MasterShape.transformToParent, QTransform.determinant, QTransform.mul,
    QTransform.rotate, QTransform.identity, QTransform.fromTranslate]
  linear_combination h

/-- The map `mapToParent` in coordinates: rotation by `rotation()`, then translation by
`pos()`. -/
theorem MasterShape.mapToParent_eq (T : Trig K) (m : MasterShape K) (p : QPointF K) :
    m.mapToParent T p =
      ⟨T.cosd m.rotation * p.x - T.sind m.rotation * p.y + m.pos.x,
       T.sind m.rotation * p.x + T.cosd m.rotation * p.y + m.pos.y⟩ := by
  simp only [MasterShape.mapToParent, MasterShape.transformToParent, QTransform.map,
    QTransform.mul, QTransform.rotate, QTransform.identity, QTransform.fromTranslate]
  congr 1 <;> ring

/-- The map `mapFromParent` in coordinates: translation by `-pos()`, then rotation by
`-rotation()`. -/
theorem MasterShape.mapFromParent_eq (T : Trig K) (m : MasterShape K) (p : QPointF K) :
    m.mapFromParent T p =
      ⟨T.cosd m.rotation * (p.x - m.pos.x) + T.sind m.rotation * (p.y - m.pos.y),
       -(T.sind m.rotation * (p.x - m.pos.x)) + T.cosd m.rotation * (p.y - m.pos.y)⟩ := by
  have hd := MasterShape.determinant_transformToParent T m
  simp only [MasterShape.mapFromParent, QTransform.inverted, hd, one_ne_zero, if_false,
    div_one, mul_one, QTransform.map]
  simp only [MasterShape.transformToParent, QTransform.mul, QTransform.rotate,
    QTransform.identity, QTransform.fromTranslate]
  congr 1 <;> ring

/-- Mapping to the parent and back is the identity on the points of a body. -/
theorem MasterShape.mapFromParent_mapToParent (T : Trig K) (m : MasterShape K)
    (p : QPointF K) : m.mapFromParent T (m.mapToParent T p) = p := by
  have h := T.cos_sq_add_sin_sq m.rotation
  rw [MasterShape.mapToParent_eq, MasterShape.mapFromParent_eq]
  cases p with
  | mk x y =>
    simp only [QPointF.mk.injEq]
    constructor
    · linear_combination x * h
    · linear_combination y * h

end TransformLemmas


/-! ## Disk -/

section DiskLemmas

variable {K : Type} [LinearOrderedField K]

/-- The rejection loop only hands out points of the unit disk. -/
theorem Disk.loop_eq_some (ds : List K) (p : QPointF K) (rest : List K)
    (h : Disk.loop ds = some (p, rest)) : p.x * p.x + p.y * p.y ≤ 1 := by
  induction ds using Disk.loop.induct with
  | case1 g1 g2 tl hrej ih =>
    rw [Disk.loop, if_pos hrej] at h
    exact ih h
  | case2 g1 g2 tl hacc =>
    rw [Disk.loop, if_neg hacc] at h
    simp only [Option.some.injEq, Prod.mk.injEq] at h
    rw [← h.1]
    exact not_lt.mp hacc
  | case3 ds hne =>
    rw [Disk.loop] at h
    · exact absurd h (by simp)
    · exact hne

/-- A point of the unit disk scaled by `r` passes the test of `Disk::isInside`. -/
theorem Disk.isInside_scale (r : K) (p : QPointF K) (h : p.x * p.x + p.y * p.y ≤ 1) :
    Disk.isInside r (p.scale r) = true := by
  simp only [Disk.isInside, QPointF.dotProduct, QPointF.scale, decide_eq_true_eq]
  nlinarith [mul_self_nonneg r, mul_le_mul_of_nonneg_right h (mul_self_nonneg r)]

/-- What `Disk::randomPoint` returns lies inside the disk. -/
theorem Disk.isInside_of_randomPoint (r : K) (s s' : Draws K) (p : QPointF K)
    (h : Disk.randomPoint r s = some (p, s')) : Disk.isInside r p = true := by
  unfold Disk.randomPoint at h
  split at h
  · exact absurd h (by simp)
  · rename_i q rest hl
    simp only [Option.some.injEq, Prod.mk.injEq] at h
    rw [← h.1]
    exact Disk.isInside_scale r q (Disk.loop_eq_some _ _ _ hl)

end DiskLemmas


/-! ## Claims on the leaf shapes and on the transformation -/

section DiskExact

variable {K : Type} [LinearOrderedField K]

/-- The point with the two coordinates exchanged. -/
theorem Disk.isInside_swap (r : K) (p : QPointF K) :
    Disk.isInside r ⟨p.y, p.x⟩ = Disk.isInside r p := by
  simp only [Disk.isInside, QPointF.dotProduct, add_comm]

/-- In exact arithmetic the loop over a given arithmetic is the loop `Disk.loop`, up to the
exchange of the coordinates when the first draw goes to the ordinate. -/
theorem Disk.loopIn_exact (xFirst : Bool) (ds : List K) :
    Disk.loopIn (Arith.exact K) xFirst ds =
      (Disk.loop ds).map (fun q => (if xFirst then q.1 else ⟨q.1.y, q.1.x⟩, q.2)) := by
  induction ds using Disk.loop.induct with
  | case1 g1 g2 tl hrej ih =>
    have hrej' : 1 < (g2 * 2 - 1) * (g2 * 2 - 1) + (g1 * 2 - 1) * (g1 * 2 - 1) := by
      rw [add_comm]; exact hrej
    rw [Disk.loop, if_pos hrej, ← ih, Disk.loopIn]
    cases xFirst <;>
      simp [Disk.coordinate, QPointF.dotProductIn, Arith.exact, hrej', gt_iff_lt.mp hrej]
  | case2 g1 g2 tl hacc =>
    have hacc' : ¬ 1 < (g2 * 2 - 1) * (g2 * 2 - 1) + (g1 * 2 - 1) * (g1 * 2 - 1) := by
      rw [add_comm]; exact hacc
    have hacc1 : ¬ 1 < (g1 * 2 - 1) * (g1 * 2 - 1) + (g2 * 2 - 1) * (g2 * 2 - 1) := hacc
    rw [Disk.loop, if_neg hacc, Disk.loopIn]
    cases xFirst <;>
      simp [Disk.coordinate, QPointF.dotProductIn, Arith.exact, hacc', hacc1]
  | case3 ds hne =>
    rw [Disk.loop, Disk.loopIn]
    · rfl
    · exact hne
    · exact hne

/-- In exact arithmetic `Disk.randomPointIn` is `Disk.randomPoint`, up to the exchange of the
coordinates when the first draw goes to the ordinate. -/
theorem Disk.randomPointIn_exact (xFirst : Bool) (r : K) (s : Draws K) :
    Disk.randomPointIn (Arith.exact K) xFirst r s =
      (Disk.randomPoint r s).map (fun q => (if xFirst then q.1 else ⟨q.1.y, q.1.x⟩, q.2)) := by
  rw [Disk.randomPointIn, Disk.loopIn_exact, Disk.randomPoint]
  cases Disk.loop s.doubles with
  | none => rfl
  | some q =>
    obtain ⟨p, rest⟩ := q
    cases xFirst <;> simp [Arith.exact, QPointF.scale]

/-- In exact arithmetic `Disk.isInsideIn` is `Disk.isInside`. -/
theorem Disk.isInsideIn_exact (r : K) (p : QPointF K) :
    Disk.isInsideIn (Arith.exact K) r p = some (Disk.isInside r p) := by
  simp [Disk.isInsideIn, QPointF.dotProductIn, Arith.exact, Disk.isInside, QPointF.dotProduct]

end DiskExact

/-- C4, as stated, fails on binary64. For the disk of radius 40 and the values
6582159117452795 / 2^53 and 8498846809941367 / 2^53 of `generateDouble()`, the rounded sum of
squares of the pair is 1.0, so the loop accepts it, and `Disk::randomPoint` returns the
point of coordinates 1299099681301437 / 2^46 = 18.461316831539946 and
4994058978213589 / 2^47 = 35.48492328927174 (in the order of the two draws, or exchanged),
whose rounded `dotProduct` with itself is 1600.0000000000002, above 1600: `Disk::isInside`
rejects it. And `Disk::isInside` is not the exact inequality: at radius 0 it accepts the
point (2^-600, 0), whose square rounds to 0. -/
theorem Disk.randomPoint_not_isInside_binary64 :
    (Disk.randomPointIn F64.arith true (F64.ofDyadic 40 0)
        ⟨[F64.ofDyadic 6582159117452795 53, F64.ofDyadic 8498846809941367 53], [], none⟩ =
      some (⟨F64.ofDyadic 1299099681301437 46, F64.ofDyadic 4994058978213589 47⟩,
        ⟨[], [], none⟩) ∧
      Disk.isInsideIn F64.arith (F64.ofDyadic 40 0)
        ⟨F64.ofDyadic 1299099681301437 46, F64.ofDyadic 4994058978213589 47⟩ = some false) ∧
    (Disk.randomPointIn F64.arith false (F64.ofDyadic 40 0)
        ⟨[F64.ofDyadic 6582159117452795 53, F64.ofDyadic 8498846809941367 53], [], none⟩ =
      some (⟨F64.ofDyadic 4994058978213589 47, F64.ofDyadic 1299099681301437 46⟩,
        ⟨[], [], none⟩) ∧
      Disk.isInsideIn F64.arith (F64.ofDyadic 40 0)
        ⟨F64.ofDyadic 4994058978213589 47, F64.ofDyadic 1299099681301437 46⟩ = some false) ∧
    (Disk.isInsideIn F64.arith (F64.ofDyadic 0 0) ⟨F64.ofDyadic 1 600, F64.ofDyadic 0 0⟩ =
        some true ∧
      ¬ ((1 / 2 ^ 600 : ℚ) * (1 / 2 ^ 600) + 0 * 0 ≤ 0 * 0)) := by
  refine ⟨by decide!, by decide!, by decide!, ?_⟩
  have hpos : (0 : ℚ) < 1 / 2 ^ 600 * (1 / 2 ^ 600) := by positivity
  rw [not_le]
  linarith

/-- C4, amended: in exact real arithmetic. For a disk of radius `r ≥ 0` and either order of
evaluation of the two draws of a round: a pair accepted by the rejection loop makes
`Disk::randomPoint` return the pair scaled by `r`; whatever point `Disk::randomPoint`
returns passes `Disk::isInside` and has Euclidean norm at most `r`; and `Disk::isInside p`
is exactly `p.x*p.x + p.y*p.y ≤ r*r`. -/
theorem Disk.randomPoint_isInside (r : ℝ) (hr : 0 ≤ r) (xFirst : Bool) :
    (∀ (g1 g2 : ℝ) (rest : List ℝ) (ints : List Nat) (flag : Option Bool),
      (g1 * 2 - 1) * (g1 * 2 - 1) + (g2 * 2 - 1) * (g2 * 2 - 1) ≤ 1 →
      Disk.randomPointIn (Arith.exact ℝ) xFirst r ⟨g1 :: g2 :: rest, ints, flag⟩ =
        some (if xFirst then ⟨(g1 * 2 - 1) * r, (g2 * 2 - 1) * r⟩
          else ⟨(g2 * 2 - 1) * r, (g1 * 2 - 1) * r⟩, ⟨rest, ints, flag⟩)) ∧
    (∀ (s s' : Draws ℝ) (p : QPointF ℝ),
      Disk.randomPointIn (Arith.exact ℝ) xFirst r s = some (p, s') →
      Disk.isInsideIn (Arith.exact ℝ) r p = some true ∧
        Real.sqrt (p.x * p.x + p.y * p.y) ≤ r) ∧
    (∀ p : QPointF ℝ, Disk.isInsideIn (Arith.exact ℝ) r p =
      some (decide (p.x * p.x + p.y * p.y ≤ r * r))) := by
  have hiff : ∀ p : QPointF ℝ, Disk.isInside r p = true ↔ p.x * p.x + p.y * p.y ≤ r * r := by
    intro p
    simp only [Disk.isInside, QPointF.dotProduct, decide_eq_true_eq]
  refine ⟨?_, ?_, ?_⟩
  · intro g1 g2 rest ints flag hacc
    rw [Disk.randomPointIn_exact]
    simp only [Disk.randomPoint, Disk.loop, if_neg (not_lt.mpr hacc), QPointF.scale,
      Option.map_some']
  · intro s s' p h
    rw [Disk.randomPointIn_exact] at h
    cases hq : Disk.randomPoint r s with
    | none => simp [hq] at h
    | some q =>
      obtain ⟨p0, s0⟩ := q
      have hin0 := Disk.isInside_of_randomPoint r s s0 p0 hq
      simp only [hq, Option.map_some', Option.some.injEq, Prod.mk.injEq] at h
      have hin : Disk.isInside r p = true := by
        rw [← h.1]
        cases xFirst
        · simp only [Bool.false_eq_true, if_false]
          rw [Disk.isInside_swap]
          exact hin0
        · simp only [if_true]
          exact hin0
      refine ⟨by rw [Disk.isInsideIn_exact, hin], ?_⟩
      have hle := (hiff p).mp hin
      calc Real.sqrt (p.x * p.x + p.y * p.y) ≤ Real.sqrt (r * r) := Real.sqrt_le_sqrt hle
        _ = r := Real.sqrt_mul_self hr
  · intro p
    rw [Disk.isInsideIn_exact]
    simp only [Disk.isInside, QPointF.dotProduct]

/-- The radius 2, the draws 3/4, 1/2 and the first draw taken for the ordinate satisfy the
hypothesis of the amended C4: the pair (1/2, 0) is accepted at once and the point returned
is (0, 1). -/
theorem Disk.randomPoint_isInside_witness :
    (0 : ℝ) ≤ 2 ∧
    Disk.randomPointIn (Arith.exact ℝ) false 2 ⟨[3 / 4, 1 / 2], [], none⟩ =
      some (⟨0, 1⟩, ⟨[], [], none⟩) ∧
    (Disk.isInsideIn (Arith.exact ℝ) 2 ⟨0, 1⟩ = some true ∧
      Real.sqrt ((0 : ℝ) * 0 + 1 * 1) ≤ 2) := by
  have hrun : Disk.randomPointIn (Arith.exact ℝ) false 2 ⟨[3 / 4, 1 / 2], [], none⟩ =
      some (⟨0, 1⟩, ⟨[], [], none⟩) := by
    rw [Disk.randomPointIn_exact]
    norm_num [Disk.randomPoint, Disk.loop, QPointF.scale]
  exact ⟨by norm_num, hrun,
    (Disk.randomPoint_isInside 2 (by norm_num) false).2.1 ⟨[3 / 4, 1 / 2], [], none⟩
      ⟨[], [], none⟩ ⟨0, 1⟩ hrun⟩

section IntersectLemmas

variable {K : Type} [LinearOrderedField K]

/-- A round of the loop gives `true` exactly on a successful trial. -/
theorem LogicalScene.trial_eq_true_iff (T : Trig K) (RAND_MAX : Nat) (f1 f2 : MasterShape K)
    (t t' : Draws K) :
    LogicalScene.trial T RAND_MAX f1 f2 t = some (true, t') ↔
      LogicalScene.Hit T RAND_MAX f1 f2 t t' := by
  unfold LogicalScene.trial LogicalScene.Hit
  cases h1 : f1.randomPoint T RAND_MAX t with
  | none => simp
  | some r1 =>
    obtain ⟨p1, t1⟩ := r1
    cases hin : f2.isInside T p1 with
    | true =>
      simp only [hin, if_true, Option.some.injEq, Prod.mk.injEq, true_and]
      constructor
      · intro h
        exact Or.inl ⟨p1, ⟨rfl, h⟩, hin⟩
      · rintro (⟨q, ⟨_, h⟩, _⟩ | ⟨q, u, _, ⟨hq, _⟩, hq2, _⟩)
        · exact h
        · rw [← hq, hin] at hq2
          exact absurd hq2 (by simp)
    | false =>
      cases h2 : f2.randomPoint T RAND_MAX t1 with
      | none =>
        simp only [hin, h2, Bool.false_eq_true, if_false, Option.some.injEq, Prod.mk.injEq,
          false_iff, reduceCtorEq]
        rintro (⟨q, ⟨hq, _⟩, hq2⟩ | ⟨q, u, q2, ⟨_, hu⟩, _, h3, _⟩)
        · rw [← hq, hin] at hq2
          exact absurd hq2 (by simp)
        · rw [← hu, h2] at h3
          exact absurd h3 (by simp)
      | some r2 =>
        obtain ⟨p2, t2⟩ := r2
        simp only [hin, h2, Bool.false_eq_true, if_false, Option.some.injEq, Prod.mk.injEq]
        constructor
        · rintro ⟨h, ht⟩
          exact Or.inr ⟨p1, t1, p2, ⟨rfl, rfl⟩, hin, by rw [← ht]; exact h2, h⟩
        · rintro (⟨q, ⟨hq, _⟩, hq2⟩ | ⟨q, u, q2, ⟨_, hu⟩, _, h3, h4⟩)
          · rw [← hq, hin] at hq2
            exact absurd hq2 (by simp)
          · rw [← hu, h2] at h3
            simp only [Option.some.injEq, Prod.mk.injEq] at h3
            rw [← h3.1] at h4
            exact ⟨h4, h3.2⟩

/-- A round of the loop gives `false` exactly on a failed trial. -/
theorem LogicalScene.trial_eq_false_iff (T : Trig K) (RAND_MAX : Nat) (f1 f2 : MasterShape K)
    (t t' : Draws K) :
    LogicalScene.trial T RAND_MAX f1 f2 t = some (false, t') ↔
      LogicalScene.Miss T RAND_MAX f1 f2 t t' := by
  unfold LogicalScene.trial LogicalScene.Miss
  cases h1 : f1.randomPoint T RAND_MAX t with
  | none => simp
  | some r1 =>
    obtain ⟨p1, t1⟩ := r1
    cases hin : f2.isInside T p1 with
    | true =>
      simp only [hin, if_true, Option.some.injEq, Prod.mk.injEq, Bool.true_eq_false,
        false_and, false_iff]
      rintro ⟨q, u, q2, ⟨hq, _⟩, hq2, _⟩
      rw [← hq, hin] at hq2
      exact absurd hq2 (by simp)
    | false =>
      cases h2 : f2.randomPoint T RAND_MAX t1 with
      | none =>
        simp only [hin, h2, Bool.false_eq_true, if_false, Option.some.injEq, Prod.mk.injEq,
          false_iff, reduceCtorEq]
        rintro ⟨q, u, q2, ⟨_, hu⟩, _, h3, _⟩
        rw [← hu, h2] at h3
        exact absurd h3 (by simp)
      | some r2 =>
        obtain ⟨p2, t2⟩ := r2
        simp only [hin, h2, Bool.false_eq_true, if_false, Option.some.injEq, Prod.mk.injEq]
        constructor
        · rintro ⟨h, ht⟩
          exact ⟨p1, t1, p2, ⟨rfl, rfl⟩, hin, by rw [← ht]; exact h2, h⟩
        · rintro ⟨q, u, q2, ⟨_, hu⟩, _, h3, h4⟩
          rw [← hu, h2] at h3
          simp only [Option.some.injEq, Prod.mk.injEq] at h3
          rw [← h3.1] at h4
          exact ⟨h4, h3.2⟩

/-- The loop with `n` rounds returns `true` exactly when some round `i < n` is a successful
trial after `i` failed ones, and it stops there. -/
theorem LogicalScene.intersectLoop_eq_true_iff (T : Trig K) (RAND_MAX : Nat)
    (f1 f2 : MasterShape K) (n : Nat) (s s' : Draws K) :
    LogicalScene.intersectLoop T RAND_MAX f1 f2 n s = some (true, s') ↔
      ∃ i, i < n ∧ ∃ t, LogicalScene.Misses T RAND_MAX f1 f2 i s t ∧
        LogicalScene.Hit T RAND_MAX f1 f2 t s' := by
  induction n generalizing s with
  | zero => simp [LogicalScene.intersectLoop]
  | succ n ih =>
    rw [LogicalScene.intersectLoop]
    constructor
    · intro h
      split at h
      · exact absurd h (by simp)
      · rename_i s1 ht
        simp only [Option.some.injEq, Prod.mk.injEq, true_and] at h
        subst h
        exact ⟨0, Nat.succ_pos n, s, rfl, (LogicalScene.trial_eq_true_iff ..).mp ht⟩
      · rename_i s1 ht
        obtain ⟨i, hi, t, hm, hh⟩ := (ih s1).mp h
        exact ⟨i + 1, Nat.succ_lt_succ hi, t,
          ⟨s1, (LogicalScene.trial_eq_false_iff ..).mp ht, hm⟩, hh⟩
    · rintro ⟨i, hi, t, hm, hh⟩
      cases i with
      | zero =>
        have hst : s = t := hm
        subst hst
        rw [(LogicalScene.trial_eq_true_iff ..).mpr hh]
      | succ i =>
        obtain ⟨t1, hmiss, hm⟩ := hm
        rw [(LogicalScene.trial_eq_false_iff ..).mpr hmiss]
        exact (ih t1).mpr ⟨i, Nat.lt_of_succ_lt_succ hi, t, hm, hh⟩

/-- The loop with `n` rounds returns `false` exactly when all `n` trials fail. -/
theorem LogicalScene.intersectLoop_eq_false_iff (T : Trig K) (RAND_MAX : Nat)
    (f1 f2 : MasterShape K) (n : Nat) (s s' : Draws K) :
    LogicalScene.intersectLoop T RAND_MAX f1 f2 n s = some (false, s') ↔
      LogicalScene.Misses T RAND_MAX f1 f2 n s s' := by
  induction n generalizing s with
  | zero =>
    simp only [LogicalScene.intersectLoop, LogicalScene.Misses, Option.some.injEq,
      Prod.mk.injEq, true_and]
  | succ n ih =>
    rw [LogicalScene.intersectLoop, LogicalScene.Misses]
    constructor
    · intro h
      split at h
      · exact absurd h (by simp)
      · exact absurd h (by simp)
      · rename_i s1 ht
        exact ⟨s1, (LogicalScene.trial_eq_false_iff ..).mp ht, (ih s1).mp h⟩
    · rintro ⟨t1, hmiss, hm⟩
      rw [(LogicalScene.trial_eq_false_iff ..).mpr hmiss]
      exact (ih t1).mpr hm

end IntersectLemmas

/-- C8. `LogicalScene::intersect(f1, f2)` returns `true` exactly when there is a trial
`i < nb_tested` that succeeds (the point sampled from `f1` is inside `f2`, or the point
sampled from `f2` is inside `f1`) after `i` failed trials, and it returns the draws as that
trial leaves them, so no trial is run after it; it returns `false` exactly when `nb_tested`
trials were run and all failed; with `nb_tested ≤ 0` it returns `false` without sampling. -/
theorem LogicalScene.intersect_iff {K : Type} [LinearOrderedField K] (T : Trig K)
    (RAND_MAX : Nat) (scene : LogicalScene) (f1 f2 : MasterShape K) (s : Draws K) :
    (∀ s', LogicalScene.intersect T RAND_MAX scene f1 f2 s = some (true, s') ↔
      ∃ i : Nat, (i : Int) < scene.nb_tested ∧ ∃ t,
        LogicalScene.Misses T RAND_MAX f1 f2 i s t ∧ LogicalScene.Hit T RAND_MAX f1 f2 t s') ∧
    (∀ s', LogicalScene.intersect T RAND_MAX scene f1 f2 s = some (false, s') ↔
      LogicalScene.Misses T RAND_MAX f1 f2 scene.nb_tested.toNat s s') ∧
    (scene.nb_tested ≤ 0 →
      LogicalScene.intersect T RAND_MAX scene f1 f2 s = some (false, s)) := by
  refine ⟨?_, ?_, ?_⟩
  · intro s'
    rw [LogicalScene.intersect, LogicalScene.intersectLoop_eq_true_iff]
    constructor
    · rintro ⟨i, hi, h⟩
      exact ⟨i, Int.lt_toNat.mp hi, h⟩
    · rintro ⟨i, hi, h⟩
      exact ⟨i, Int.lt_toNat.mpr hi, h⟩
  · intro s'
    rw [LogicalScene.intersect, LogicalScene.intersectLoop_eq_false_iff]
  · intro h
    rw [LogicalScene.intersect, Int.toNat_eq_zero.mpr h, LogicalScene.intersectLoop]

/-- C10. A body is never tested against itself: when every entry of `formes` is the address
`f1` (in particular when `formes` is `[f1]` or empty), `LogicalScene::intersect(f1)` returns
`false` and consumes no draw, the pairwise test being called for no entry. -/
theorem LogicalScene.intersect1_only_self {K : Type} [LinearOrderedField K] (T : Trig K)
    (RAND_MAX : Nat) (scene : LogicalScene) (heap : Ptr → MasterShape K) (f1 : Ptr)
    (s : Draws K) (h : ∀ f ∈ scene.formes, f = f1) :
    LogicalScene.intersect1 T RAND_MAX scene heap f1 s = some (false, s) := by
  unfold LogicalScene.intersect1
  generalize scene.formes = fs at h
  induction fs with
  | nil => rfl
  | cons f fs ih =>
    have hf : f = f1 := h f (List.mem_cons_self f fs)
    rw [LogicalScene.intersect1Loop, if_neg (not_not.mpr hf)]
    exact ih (fun g hg => h g (List.mem_cons_of_mem f hg))

/-- The scene whose only body is a disk of radius 10 stored at address 7, with a budget of
100 samples, satisfies the hypothesis of C10. -/
theorem LogicalScene.intersect1_only_self_witness :
    (∀ f ∈ (⟨[7], 100⟩ : LogicalScene).formes, f = 7) ∧
    LogicalScene.intersect1 ratTrig 2147483647 ⟨[7], 100⟩
      (fun _ => ⟨⟨300, 300⟩, 0, .disk 10, .Ok⟩) 7 ⟨[1 / 2, 1 / 2], [0], none⟩ =
      some (false, ⟨[1 / 2, 1 / 2], [0], none⟩) :=
  ⟨by simp, LogicalScene.intersect1_only_self ratTrig 2147483647 ⟨[7], 100⟩ _ 7 _ (by simp)⟩

/-! ## Two distant disks -/

section FarDisks

variable {K : Type} [LinearOrderedField K]

end FarDisks

/-- C9, as stated, fails. Two asteroids of radius 10 at (0, 0) and (11, 11), one trial, and
the draws 4/5, 4/5, 1/5, 1/5 of `generateDouble()`: `intersect(a, b)` samples (6, 6) from
`a`, which is in `b`, and returns `true`; `intersect(b, a)` on the same draws samples
(17, 17) from `b` and then (-6, -6) from `a`, neither in the other body, and returns
`false`. -/
theorem LogicalScene.intersect_not_symmetric :
    LogicalScene.intersect ratTrig 2147483647 ⟨[], 1⟩
        ((Asteroid (10 : ℚ)).setPos ⟨0, 0⟩) ((Asteroid 10).setPos ⟨11, 11⟩)
        ⟨[4 / 5, 4 / 5, 1 / 5, 1 / 5], [], none⟩ =
      some (true, ⟨[1 / 5, 1 / 5], [], none⟩) ∧
    LogicalScene.intersect ratTrig 2147483647 ⟨[], 1⟩
        ((Asteroid (10 : ℚ)).setPos ⟨11, 11⟩) ((Asteroid 10).setPos ⟨0, 0⟩)
        ⟨[4 / 5, 4 / 5, 1 / 5, 1 / 5], [], none⟩ =
      some (false, ⟨[], [], none⟩) := by
  constructor <;>
  norm_num [LogicalScene.intersect, LogicalScene.intersectLoop, LogicalScene.trial,
    MasterShape.randomPoint, MasterShape.isInside, GraphicalShape.randomPoint,
    GraphicalShape.isInside, Disk.randomPoint, Disk.loop, Disk.isInside, QPointF.scale,
    QPointF.dotProduct, MasterShape.mapToParent, MasterShape.mapFromParent,
    MasterShape.transformToParent, QTransform.identity, QTransform.rotate, QTransform.mul,
    QTransform.fromTranslate, QTransform.inverted, QTransform.determinant, QTransform.map,
    ratTrig, Asteroid, MasterShape.setPos]

/-- C9, amended. `intersect(a, b)` on the draws `s` and `intersect(b, a)` on the draws `s'`
return the same boolean whenever the two calls sample the same points in each of the
`nb_tested` trials (the same point from `a` and the same point from `b`). -/
theorem LogicalScene.intersect_symmetric_of_sameSamples {K : Type} [LinearOrderedField K]
    (T : Trig K) (RAND_MAX : Nat) (scene : LogicalScene) (a b : MasterShape K)
    (s s' : Draws K)
    (h : LogicalScene.SameSamples T RAND_MAX a b scene.nb_tested.toNat s s') :
    (LogicalScene.intersect T RAND_MAX scene a b s).map Prod.fst =
      (LogicalScene.intersect T RAND_MAX scene b a s').map Prod.fst := by
  unfold LogicalScene.intersect
  generalize scene.nb_tested.toNat = n at h
  induction n generalizing s s' with
  | zero => rfl
  | succ n ih =>
    obtain ⟨pa, pb, s1, s2, s1', s2', h1, h2, h3, h4, hrest⟩ := h
    have hab : LogicalScene.trial T RAND_MAX a b s =
        if b.isInside T pa then some (true, s1) else some (a.isInside T pb, s2) := by
      simp only [LogicalScene.trial, h1, h2]
    have hba : LogicalScene.trial T RAND_MAX b a s' =
        if a.isInside T pb then some (true, s1') else some (b.isInside T pa, s2') := by
      simp only [LogicalScene.trial, h3, h4]
    rw [LogicalScene.intersectLoop, LogicalScene.intersectLoop, hab, hba]
    cases hb : b.isInside T pa <;> cases ha : a.isInside T pb <;>
      simp only [Bool.false_eq_true, if_false, if_true, Option.map_some']
    exact ih s2 s2' hrest

/-- The two asteroids of the counterexample, with the draws of the two sampled points
exchanged between the calls, satisfy the hypothesis of the amended C9: both calls sample
(6, 6) from `a` and (5, 5) from `b`. -/
theorem LogicalScene.intersect_symmetric_of_sameSamples_witness :
    LogicalScene.SameSamples ratTrig 2147483647
        ((Asteroid (10 : ℚ)).setPos ⟨0, 0⟩) ((Asteroid 10).setPos ⟨11, 11⟩)
        (⟨[], 1⟩ : LogicalScene).nb_tested.toNat
        ⟨[4 / 5, 4 / 5, 1 / 5, 1 / 5], [], none⟩
        ⟨[1 / 5, 1 / 5, 4 / 5, 4 / 5], [], none⟩ ∧
    (LogicalScene.intersect ratTrig 2147483647 ⟨[], 1⟩
        ((Asteroid (10 : ℚ)).setPos ⟨0, 0⟩) ((Asteroid 10).setPos ⟨11, 11⟩)
        ⟨[4 / 5, 4 / 5, 1 / 5, 1 / 5], [], none⟩).map Prod.fst =
      (LogicalScene.intersect ratTrig 2147483647 ⟨[], 1⟩
        ((Asteroid (10 : ℚ)).setPos ⟨11, 11⟩) ((Asteroid 10).setPos ⟨0, 0⟩)
        ⟨[1 / 5, 1 / 5, 4 / 5, 4 / 5], [], none⟩).map Prod.fst := by
  have hs : LogicalScene.SameSamples ratTrig 2147483647
      ((Asteroid (10 : ℚ)).setPos ⟨0, 0⟩) ((Asteroid 10).setPos ⟨11, 11⟩)
      (⟨[], 1⟩ : LogicalScene).nb_tested.toNat
      ⟨[4 / 5, 4 / 5, 1 / 5, 1 / 5], [], none⟩
      ⟨[1 / 5, 1 / 5, 4 / 5, 4 / 5], [], none⟩ := by
    refine ⟨⟨6, 6⟩, ⟨5, 5⟩, ⟨[1 / 5, 1 / 5], [], none⟩, ⟨[], [], none⟩,
      ⟨[4 / 5, 4 / 5], [], none⟩, ⟨[], [], none⟩, ?_, ?_, ?_, ?_, trivial⟩ <;>
    norm_num [MasterShape.randomPoint, GraphicalShape.randomPoint, Disk.randomPoint, Disk.loop,
      QPointF.scale, MasterShape.mapToParent, MasterShape.transformToParent,
      QTransform.identity, QTransform.rotate, QTransform.mul, QTransform.fromTranslate,
      QTransform.map, ratTrig, Asteroid, MasterShape.setPos]
  exact ⟨hs, LogicalScene.intersect_symmetric_of_sameSamples ratTrig 2147483647 ⟨[], 1⟩ _ _ _ _ hs⟩

/-! ## The rectangle -/

/-- A rectangle whose top-left corner has a negative coordinate has no point that passes
`Rectangle::isInside`. -/
theorem Rectangle.isInside_eq_false_of_neg {K : Type} [LinearOrderedField K] (rect : QRectF K)
    (h : rect.x < 0 ∨ rect.y < 0) (p : QPointF K) : Rectangle.isInside rect p = false := by
  simp only [Rectangle.isInside, Bool.and_eq_false_imp, Bool.and_eq_true, decide_eq_true_eq,
    decide_eq_false_iff_not, not_le, and_imp]
  intro h1 _ h3
  rcases h with h | h
  · exact absurd h1 (not_le.mpr h)
  · exact lt_of_lt_of_le h h3

/-- C6 fails on the code. For the rectangle `d1` of the space truck, of corners (-80, -10)
and (0, 10), the point (-40, 0) lies between the corners and `Rectangle::isInside` rejects
it; for the rectangle of corners (10, 20) and (30, 40), the point (5, 10) lies outside and
`Rectangle::isInside` accepts it. -/
theorem Rectangle.isInside_not_membership :
    (Rectangle.isInside (QRectF.ofCorners (⟨-80, -10⟩ : QPointF ℚ) ⟨0, 10⟩) ⟨-40, 0⟩ = false ∧
      ((-80 : ℚ) ≤ -40 ∧ (-40 : ℚ) ≤ 0 ∧ (-10 : ℚ) ≤ 0 ∧ (0 : ℚ) ≤ 10)) ∧
    (Rectangle.isInside (QRectF.ofCorners (⟨10, 20⟩ : QPointF ℚ) ⟨30, 40⟩) ⟨5, 10⟩ = true ∧
      ¬ ((10 : ℚ) ≤ 5)) := by
  norm_num [Rectangle.isInside, QRectF.ofCorners, QRectF.x, QRectF.y]

/-- C7 fails on the code. For the rectangle `d2` of the space truck, of corners (10, -10) and
(30, 10), and the values 1804289383 and 846930886 of `rand()` with `RAND_MAX = 2147483647`,
`Rectangle::randomPoint` returns (0, 0), which is left of the rectangle and outside
`Rectangle::boundingRect()`. -/
theorem Rectangle.randomPoint_outside :
    Rectangle.randomPoint 2147483647 (QRectF.ofCorners (⟨10, -10⟩ : QPointF ℚ) ⟨30, 10⟩)
        ⟨[], [1804289383, 846930886], none⟩ = some (⟨0, 0⟩, ⟨[], [], none⟩) ∧
    ¬ ((10 : ℚ) ≤ 0) ∧
    (Rectangle.boundingRect (QRectF.ofCorners (⟨10, -10⟩ : QPointF ℚ) ⟨30, 10⟩)).contains
        ⟨0, 0⟩ = false := by
  norm_num [Rectangle.randomPoint, Rectangle.boundingRect, QRectF.ofCorners, QRectF.x,
    QRectF.y, QRectF.contains]

/-! ## Sampling against containment -/

/-- No point passes `isInside` on the shape of the space truck: each of its three rectangles
has a top-left corner with a negative ordinate. -/
theorem SpaceTruck.isInside_eq_false {K : Type} [LinearOrderedField K] (T : Trig K)
    (p : QPointF K) : (SpaceTruck : MasterShape K)._f.isInside T p = false := by
  have h1 := Rectangle.isInside_eq_false_of_neg (QRectF.ofCorners (⟨-80, -10⟩ : QPointF K) ⟨0, 10⟩)
    (Or.inl (by norm_num [QRectF.ofCorners, QRectF.x])) p
  have h2 := Rectangle.isInside_eq_false_of_neg (QRectF.ofCorners (⟨10, -10⟩ : QPointF K) ⟨30, 10⟩)
    (Or.inr (by norm_num [QRectF.ofCorners, QRectF.y])) p
  have h3 := Rectangle.isInside_eq_false_of_neg (QRectF.ofCorners (⟨0, -3⟩ : QPointF K) ⟨10, 3⟩)
    (Or.inr (by norm_num [QRectF.ofCorners, QRectF.y])) p
  simp only [SpaceTruck, Rectangle, GraphicalShape.isInside, h1, h2, h3, Bool.or_self]

/-- Away from rectangles sampling agrees with containment: on a shape built from disks,
unions and transformations only, whatever `randomPoint` returns passes `isInside`. -/
theorem GraphicalShape.isInside_of_randomPoint_of_rectFree {K : Type} [LinearOrderedField K]
    (T : Trig K) (RAND_MAX : Nat) (f : GraphicalShape K) (hf : f.rectFree = true)
    (s s' : Draws K) (p : QPointF K) (h : f.randomPoint T RAND_MAX s = some (p, s')) :
    f.isInside T p = true := by
  induction f generalizing s s' p with
  | disk r => exact Disk.isInside_of_randomPoint r s s' p h
  | rectangle rect => exact absurd hf (by simp [GraphicalShape.rectFree])
  | union f1 f2 ih1 ih2 =>
    simp only [GraphicalShape.rectFree, Bool.and_eq_true] at hf
    simp only [GraphicalShape.isInside, Bool.or_eq_true]
    rw [GraphicalShape.randomPoint] at h
    split at h
    · split at h
      · exact Or.inl (ih1 hf.1 _ _ _ h)
      · exact Or.inr (ih2 hf.2 _ _ _ h)
    · split at h
      · exact absurd h (by simp)
      · split at h
        · exact Or.inl (ih1 hf.1 _ _ _ h)
        · exact Or.inr (ih2 hf.2 _ _ _ h)
  | transformation f dx angle ih =>
    simp only [GraphicalShape.rectFree] at hf
    rw [GraphicalShape.randomPoint] at h
    split at h
    · exact absurd h (by simp)
    · rename_i q s1 hq
      simp only [Option.some.injEq, Prod.mk.injEq] at h
      have hin := ih hf _ _ _ hq
      have hc := T.cos_sq_add_sin_sq angle
      have hback : (((QTransform.identity).translate (-1 * dx.x) (-1 * dx.y)).rotate T
          (-1 * angle)).map p = q := by
        rw [← h.1, QTransform.map_rotate_translate, QTransform.map_translate_rotate]
        cases q with
        | mk x y =>
          simp only [QPointF.mk.injEq]
          constructor
          · linear_combination (x + dx.x) * hc
          · linear_combination (y + dx.y) * hc
      rw [GraphicalShape.isInside, hback]
      exact hin

/-- Away from rectangles the pairwise test has no false positive: when the shapes of both
bodies are built from disks, unions and transformations only and `intersect` returns `true`,
some point passes `isInside` on both bodies. -/
theorem LogicalScene.intersect_sound_of_rectFree {K : Type} [LinearOrderedField K]
    (T : Trig K) (RAND_MAX : Nat) (scene : LogicalScene) (f1 f2 : MasterShape K)
    (h1 : f1._f.rectFree = true) (h2 : f2._f.rectFree = true) (s s' : Draws K)
    (h : LogicalScene.intersect T RAND_MAX scene f1 f2 s = some (true, s')) :
    ∃ p, f1.isInside T p = true ∧ f2.isInside T p = true := by
  have hself : ∀ (m : MasterShape K), m._f.rectFree = true → ∀ (t t' : Draws K) (p : QPointF K),
      m.randomPoint T RAND_MAX t = some (p, t') → m.isInside T p = true := by
    intro m hm t t' p hp
    unfold MasterShape.randomPoint at hp
    split at hp
    · exact absurd hp (by simp)
    · rename_i q t1 hq
      simp only [Option.some.injEq, Prod.mk.injEq] at hp
      rw [← hp.1, MasterShape.isInside, MasterShape.mapFromParent_mapToParent]
      exact GraphicalShape.isInside_of_randomPoint_of_rectFree T RAND_MAX m._f hm _ _ _ hq
  obtain ⟨i, _, t, _, hh⟩ := (LogicalScene.intersectLoop_eq_true_iff ..).mp h
  rcases hh with ⟨p1, hp1, hin⟩ | ⟨p1, t1, p2, _, _, hp2, hin⟩
  · exact ⟨p1, hself f1 h1 _ _ _ hp1, hin⟩
  · exact ⟨p2, hin, hself f2 h2 _ _ _ hp2⟩

/-- C2 fails on the code. On the shape of the space truck, with the static `flipACoin` not
yet initialised and the values 1804289383, 846930886, 1681692777 of `rand()`
(`RAND_MAX = 2147483647`), `randomPoint` returns (0, 0), taken from the rectangle `d3`, and
`isInside` rejects (0, 0). -/
theorem GraphicalShape.randomPoint_not_isInside :
    (SpaceTruck : MasterShape ℚ)._f.randomPoint ratTrig 2147483647
        ⟨[], [1804289383, 846930886, 1681692777], none⟩ =
      some (⟨0, 0⟩, ⟨[], [], some false⟩) ∧
    (SpaceTruck : MasterShape ℚ)._f.isInside ratTrig ⟨0, 0⟩ = false := by
  refine ⟨?_, SpaceTruck.isInside_eq_false ratTrig _⟩
  norm_num [SpaceTruck, Rectangle, GraphicalShape.randomPoint, Rectangle.randomPoint, coin,
    QRectF.ofCorners, QRectF.x, QRectF.y]

/-- C1 fails on the code. A space truck and an asteroid of radius 10, both at (300, 300), a
budget of 100 and the values 1804289383, 846930886, 1681692777 of `rand()`: the first trial
samples (300, 300) from the truck, which is inside the asteroid, so `intersect` returns
`true`; yet no point at all passes `isInside` on the truck, so the two bodies have no
common point in the sense of `isInside`. -/
theorem LogicalScene.intersect_false_positive :
    LogicalScene.intersect ratTrig 2147483647 ⟨[], 100⟩
        ((SpaceTruck : MasterShape ℚ).setPos ⟨300, 300⟩) ((Asteroid 10).setPos ⟨300, 300⟩)
        ⟨[], [1804289383, 846930886, 1681692777], none⟩ =
      some (true, ⟨[], [], some false⟩) ∧
    ¬ ∃ p : QPointF ℚ,
      ((SpaceTruck : MasterShape ℚ).setPos ⟨300, 300⟩).isInside ratTrig p = true ∧
      ((Asteroid (10 : ℚ)).setPos ⟨300, 300⟩).isInside ratTrig p = true := by
  constructor
  · have h100 : (⟨[], 100⟩ : LogicalScene).nb_tested.toNat = 99 + 1 := by decide
    rw [LogicalScene.intersect, h100, LogicalScene.intersectLoop]
    norm_num [LogicalScene.trial,
      MasterShape.randomPoint, MasterShape.isInside, GraphicalShape.randomPoint,
      GraphicalShape.isInside, Rectangle.randomPoint, coin, Disk.isInside,
      QPointF.dotProduct, MasterShape.mapToParent, MasterShape.mapFromParent,
      MasterShape.transformToParent, QTransform.identity, QTransform.rotate, QTransform.mul,
      QTransform.fromTranslate, QTransform.inverted, QTransform.determinant, QTransform.map,
      ratTrig, Asteroid, SpaceTruck, Rectangle, MasterShape.setPos, QRectF.ofCorners,
      QRectF.x, QRectF.y]
  · rintro ⟨p, h, _⟩
    have hf := SpaceTruck.isInside_eq_false ratTrig
      (((SpaceTruck : MasterShape ℚ).setPos ⟨300, 300⟩).mapFromParent ratTrig p)
    rw [MasterShape.isInside] at h
    have hsame : ((SpaceTruck : MasterShape ℚ).setPos ⟨300, 300⟩)._f =
        (SpaceTruck : MasterShape ℚ)._f := rfl
    rw [hsame, hf] at h
    exact absurd h (by simp)

/-! ## The coin of the union -/

section CoinLemmas

variable {K : Type} [LinearOrderedField K]

/-- Once the static `flipACoin` holds a value, sampling a shape leaves that value in place. -/
theorem GraphicalShape.flipACoin_randomPoint (T : Trig K) (RAND_MAX : Nat) (c : Bool)
    (f : GraphicalShape K) (s s' : Draws K) (p : QPointF K) (hs : s.flipACoin = some c)
    (h : f.randomPoint T RAND_MAX s = some (p, s')) : s'.flipACoin = some c := by
  induction f generalizing s s' p with
  | disk r =>
    simp only [GraphicalShape.randomPoint, Disk.randomPoint] at h
    split at h
    · exact absurd h (by simp)
    · simp only [Option.some.injEq, Prod.mk.injEq] at h
      rw [← h.2]
      exact hs
  | rectangle rect =>
    simp only [GraphicalShape.randomPoint, Rectangle.randomPoint] at h
    split at h
    · simp only [Option.some.injEq, Prod.mk.injEq] at h
      rw [← h.2]
      exact hs
    · exact absurd h (by simp)
  | union f1 f2 ih1 ih2 =>
    rw [GraphicalShape.randomPoint] at h
    split at h
    · split at h
      · exact ih1 _ _ _ hs h
      · exact ih2 _ _ _ hs h
    · rename_i hnone
      rw [hs] at hnone
      exact absurd hnone (by simp)
  | transformation f dx angle ih =>
    rw [GraphicalShape.randomPoint] at h
    split at h
    · exact absurd h (by simp)
    · rename_i q s1 hq
      simp only [Option.some.injEq, Prod.mk.injEq] at h
      rw [← h.2]
      exact ih _ _ _ hs hq

/-- Once the static `flipACoin` holds a value, sampling a body leaves that value in place. -/
theorem MasterShape.flipACoin_sample (T : Trig K) (RAND_MAX : Nat) (c : Bool)
    (m : MasterShape K) (s s' : Draws K) (p : QPointF K) (hs : s.flipACoin = some c)
    (h : m.randomPoint T RAND_MAX s = some (p, s')) : s'.flipACoin = some c := by
  unfold MasterShape.randomPoint at h
  split at h
  · exact absurd h (by simp)
  · rename_i q s1 hq
    simp only [Option.some.injEq, Prod.mk.injEq] at h
    rw [← h.2]
    exact GraphicalShape.flipACoin_randomPoint T RAND_MAX c _ _ _ _ hs hq

/-- Once the static `flipACoin` holds a value, a round of the pairwise test leaves that value
in place. -/
theorem LogicalScene.flipACoin_trial (T : Trig K) (RAND_MAX : Nat) (c : Bool)
    (f1 f2 : MasterShape K) (s s' : Draws K) (b : Bool) (hs : s.flipACoin = some c)
    (h : LogicalScene.trial T RAND_MAX f1 f2 s = some (b, s')) : s'.flipACoin = some c := by
  cases b with
  | true =>
    rcases (LogicalScene.trial_eq_true_iff ..).mp h with ⟨p1, h1, _⟩ | ⟨p1, t1, p2, h1, _, h2, _⟩
    · exact MasterShape.flipACoin_sample T RAND_MAX c _ _ _ _ hs h1
    · exact MasterShape.flipACoin_sample T RAND_MAX c _ _ _ _
        (MasterShape.flipACoin_sample T RAND_MAX c _ _ _ _ hs h1) h2
  | false =>
    obtain ⟨p1, t1, p2, h1, _, h2, _⟩ := (LogicalScene.trial_eq_false_iff ..).mp h
    exact MasterShape.flipACoin_sample T RAND_MAX c _ _ _ _
      (MasterShape.flipACoin_sample T RAND_MAX c _ _ _ _ hs h1) h2

/-- Once the static `flipACoin` holds a value, the pairwise test leaves that value in
place. -/
theorem LogicalScene.flipACoin_intersect (T : Trig K) (RAND_MAX : Nat) (c : Bool)
    (scene : LogicalScene) (f1 f2 : MasterShape K) (s s' : Draws K) (b : Bool)
    (hs : s.flipACoin = some c)
    (h : LogicalScene.intersect T RAND_MAX scene f1 f2 s = some (b, s')) :
    s'.flipACoin = some c := by
  unfold LogicalScene.intersect at h
  generalize scene.nb_tested.toNat = n at h
  induction n generalizing s with
  | zero =>
    simp only [LogicalScene.intersectLoop, Option.some.injEq, Prod.mk.injEq] at h
    rw [← h.2]
    exact hs
  | succ n ih =>
    rw [LogicalScene.intersectLoop] at h
    split at h
    · exact absurd h (by simp)
    · rename_i s1 ht
      simp only [Option.some.injEq, Prod.mk.injEq] at h
      rw [← h.2]
      exact LogicalScene.flipACoin_trial T RAND_MAX c _ _ _ _ _ hs ht
    · rename_i s1 ht
      exact ih s1 (LogicalScene.flipACoin_trial T RAND_MAX c _ _ _ _ _ hs ht) h

/-- Once the static `flipACoin` holds a value, the test of a body against the scene leaves
that value in place. -/
theorem LogicalScene.flipACoin_intersect1 (T : Trig K) (RAND_MAX : Nat) (c : Bool)
    (scene : LogicalScene) (heap : Ptr → MasterShape K) (f1 : Ptr) (s s' : Draws K) (b : Bool)
    (hs : s.flipACoin = some c)
    (h : LogicalScene.intersect1 T RAND_MAX scene heap f1 s = some (b, s')) :
    s'.flipACoin = some c := by
  unfold LogicalScene.intersect1 at h
  generalize scene.formes = fs at h
  induction fs generalizing s with
  | nil =>
    simp only [LogicalScene.intersect1Loop, Option.some.injEq, Prod.mk.injEq] at h
    rw [← h.2]
    exact hs
  | cons f fs ih =>
    rw [LogicalScene.intersect1Loop] at h
    split at h
    · split at h
      · exact absurd h (by simp)
      · rename_i s1 hi
        simp only [Option.some.injEq, Prod.mk.injEq] at h
        rw [← h.2]
        exact LogicalScene.flipACoin_intersect T RAND_MAX c _ _ _ _ _ _ hs hi
      · rename_i s1 hi
        exact ih s1 (LogicalScene.flipACoin_intersect T RAND_MAX c _ _ _ _ _ _ hs hi) h
    · exact ih s hs h

end CoinLemmas

/-- C13. The child a `Union` samples from is decided once for the whole program. The first
execution of `Union::randomPoint` (static not yet initialised) takes one value `v` of
`rand()`, stores the coin made of it and delegates accordingly; once the static holds `c`,
every `Union::randomPoint`, on any union, delegates to `_f1` when `c` is true and to `_f2`
otherwise, on the draws as they stand, whatever values of `rand()` are still to come; and
every sampling of a shape, and every test of a body against the scene, leaves the static as
it is. -/
theorem Union.randomPoint_coin_fixed {K : Type} [LinearOrderedField K] (T : Trig K)
    (RAND_MAX : Nat) :
    (∀ (f1 f2 : GraphicalShape K) (ds : List K) (v : Nat) (rest : List Nat),
      (GraphicalShape.union f1 f2).randomPoint T RAND_MAX ⟨ds, v :: rest, none⟩ =
        (if coin (K := K) RAND_MAX v then f1 else f2).randomPoint T RAND_MAX
          ⟨ds, rest, some (coin (K := K) RAND_MAX v)⟩) ∧
    (∀ (c : Bool) (g1 g2 : GraphicalShape K) (t : Draws K), t.flipACoin = some c →
      (GraphicalShape.union g1 g2).randomPoint T RAND_MAX t =
        (if c then g1 else g2).randomPoint T RAND_MAX t) ∧
    (∀ (c : Bool) (g : GraphicalShape K) (t t' : Draws K) (p : QPointF K),
      t.flipACoin = some c → g.randomPoint T RAND_MAX t = some (p, t') →
      t'.flipACoin = some c) ∧
    (∀ (g1 g2 : GraphicalShape K) (t t' : Draws K) (p : QPointF K),
      t.flipACoin = none → (GraphicalShape.union g1 g2).randomPoint T RAND_MAX t = some (p, t') →
      ∃ v rest, t.ints = v :: rest ∧ t'.flipACoin = some (coin (K := K) RAND_MAX v)) ∧
    (∀ (c : Bool) (scene : LogicalScene) (heap : Ptr → MasterShape K) (f1 : Ptr)
      (t t' : Draws K) (b : Bool), t.flipACoin = some c →
      LogicalScene.intersect1 T RAND_MAX scene heap f1 t = some (b, t') →
      t'.flipACoin = some c) := by
  refine ⟨?_, ?_, ?_, ?_, ?_⟩
  · intro f1 f2 ds v rest
    rw [GraphicalShape.randomPoint]
    cases hc : coin (K := K) RAND_MAX v <;> simp [hc]
  · intro c g1 g2 t ht
    rw [GraphicalShape.randomPoint]
    cases c <;> simp [ht]
  · intro c g t t' p ht h
    exact GraphicalShape.flipACoin_randomPoint T RAND_MAX c g t t' p ht h
  · intro g1 g2 t t' p ht h
    rw [GraphicalShape.randomPoint] at h
    split at h
    · rename_i c hc
      rw [ht] at hc
      exact absurd hc (by simp)
    · split at h
      · exact absurd h (by simp)
      · rename_i v rest hints
        refine ⟨v, rest, hints, ?_⟩
        split at h
        · rename_i hcoin
          rw [hcoin]
          exact GraphicalShape.flipACoin_randomPoint T RAND_MAX true _ _ _ _ rfl h
        · rename_i hcoin
          rw [Bool.not_eq_true] at hcoin
          rw [hcoin]
          exact GraphicalShape.flipACoin_randomPoint T RAND_MAX false _ _ _ _ rfl h
  · intro c scene heap f1 t t' b ht h
    exact LogicalScene.flipACoin_intersect1 T RAND_MAX c scene heap f1 t t' b ht h

/-- C14. With `0 < RAND_MAX` and a value `v ≤ RAND_MAX` of `rand()`, the coin
`(rand() / RAND_MAX) > 0.5` is true exactly when `v = RAND_MAX`; for `v < RAND_MAX` the
integer quotient is 0, the coin is false, and the first `Union::randomPoint` of the program
returns what `_f2.randomPoint()` returns. -/
theorem coin_eq_true_iff {K : Type} [LinearOrderedField K] (RAND_MAX v : Nat)
    (hmax : 0 < RAND_MAX) (hv : v ≤ RAND_MAX) :
    (coin (K := K) RAND_MAX v = true ↔ v = RAND_MAX) ∧
    (v < RAND_MAX → v / RAND_MAX = 0 ∧ coin (K := K) RAND_MAX v = false ∧
      ∀ (T : Trig K) (f1 f2 : GraphicalShape K) (ds : List K) (rest : List Nat),
        (GraphicalShape.union f1 f2).randomPoint T RAND_MAX ⟨ds, v :: rest, none⟩ =
          f2.randomPoint T RAND_MAX ⟨ds, rest, some false⟩) := by
  have hlt : v < RAND_MAX → coin (K := K) RAND_MAX v = false := by
    intro h
    simp [coin, Nat.div_eq_of_lt h]
  constructor
  · constructor
    · intro hc
      by_contra hne
      have := hlt (lt_of_le_of_ne hv hne)
      rw [hc] at this
      exact absurd this (by simp)
    · intro h
      subst h
      simp only [coin, Nat.div_self hmax, Nat.cast_one, decide_eq_true_eq]
      norm_num
  · intro h
    refine ⟨Nat.div_eq_of_lt h, hlt h, ?_⟩
    intro T f1 f2 ds rest
    rw [GraphicalShape.randomPoint]
    simp [hlt h]

/-- The value 2147483647 of `RAND_MAX` and the value 1804289383 of `rand()` satisfy the
hypotheses of C14: the coin is false. -/
theorem coin_eq_true_iff_witness :
    (0 < 2147483647 ∧ 1804289383 ≤ 2147483647) ∧
    ((coin (K := ℚ) 2147483647 1804289383 = true ↔ 1804289383 = 2147483647) ∧
      1804289383 / 2147483647 = 0 ∧ coin (K := ℚ) 2147483647 1804289383 = false) :=
  ⟨⟨by decide, by decide⟩,
    (coin_eq_true_iff 2147483647 1804289383 (by decide) (by decide)).1,
    ((coin_eq_true_iff (K := ℚ) 2147483647 1804289383 (by decide) (by decide)).2
      (by decide)).1,
    ((coin_eq_true_iff (K := ℚ) 2147483647 1804289383 (by decide) (by decide)).2
      (by decide)).2.1⟩

/-! ## Claims on advance -/

/-- Reading back the `MasterShape` part just stored at an address. -/
theorem setMaster_self {K : Type} (world : Ptr → Body K) (self : Ptr) (m : MasterShape K) :
    (setMaster world self m self).master = m := by
  simp only [setMaster, Function.update_same]

section AdvanceLemmas

variable {K : Type} [LinearOrderedField K]

/-- Part (I) of `advance` on a body beyond the right edge and within the vertical margins:
the abscissa becomes -99 and the ordinate stays. -/
theorem MasterShape.keepInScene_right (m : MasterShape K) (hx : 700 < m.pos.x)
    (hy1 : -100 ≤ m.pos.y) (hy2 : m.pos.y ≤ 700) :
    m.keepInScene.pos = ⟨-99, m.pos.y⟩ := by
  have h1 : ¬ m.pos.x < -100 := by
    intro h
    linarith
  have h3 : ¬ m.pos.y < -100 := not_lt.mpr hy1
  have h4 : ¬ m.pos.y > 700 := not_lt.mpr hy2
  simp only [MasterShape.keepInScene, MasterShape.scenePos, IMAGE_SIZE, SZ_BD]
  norm_num [h1, hx, h3, h4, MasterShape.setPos]

end AdvanceLemmas

/-- C11, as stated, fails. A body of class `MasterShape` alone in the scene, at (800, 800):
after `advance(1)` its position is (800, -99). The test on `p.y()` calls `setPos` with the
abscissa read before the test on `p.x()`, so the abscissa is 800 again, and the ordinate is
wrapped. -/
theorem MasterShape.advance_corner :
    (MasterShape.advance ratTrig 2147483647 (some ⟨[0], 100⟩)
        (fun _ => ⟨.MasterShape, 0, ⟨⟨800, 800⟩, 0, .disk 10, .Ok⟩⟩) 0 1
        ⟨[], [], none⟩).map (fun r => (r.1 0).master.pos) =
      some ⟨800, -99⟩ := by
  norm_num [MasterShape.advance, MasterShape.keepInScene, MasterShape.scenePos,
    MasterShape.setPos, setMaster, LogicalScene.intersect1, LogicalScene.intersect1Loop,
    IMAGE_SIZE, SZ_BD]

/-- C11, amended. For a body without parent item whose position `p` has `p.x > 700` and
`-100 ≤ p.y ≤ 700`, and a step that is not 0: whenever `MasterShape::advance` returns, the
position of the body is `(-99, p.y)`; and it returns exactly when the collision query on the
moved body does. -/
theorem MasterShape.advance_wrap_right {K : Type} [LinearOrderedField K] (T : Trig K)
    (RAND_MAX : Nat) (scene : LogicalScene) (world : Ptr → Body K) (self : Ptr) (step : Int)
    (s : Draws K) (hstep : step ≠ 0) (hx : 700 < (world self).master.pos.x)
    (hy1 : -100 ≤ (world self).master.pos.y) (hy2 : (world self).master.pos.y ≤ 700) :
    (∀ world' s', MasterShape.advance T RAND_MAX (some scene) world self step s =
        some (world', s') →
      (world' self).master.pos = ⟨-99, (world self).master.pos.y⟩) ∧
    ((MasterShape.advance T RAND_MAX (some scene) world self step s).isSome =
      (scene.intersect1 T RAND_MAX
        (fun f => (setMaster world self (world self).master.keepInScene f).master)
        self s).isSome) := by
  have hpos := MasterShape.keepInScene_right (world self).master hx hy1 hy2
  simp only [MasterShape.advance, if_neg hstep]
  cases hq : scene.intersect1 T RAND_MAX
      (fun f => (setMaster world self (world self).master.keepInScene f).master) self s with
  | none => simp
  | some r =>
    obtain ⟨hit, s1⟩ := r
    refine ⟨?_, by simp⟩
    intro world' s' h
    simp only [Option.some.injEq, Prod.mk.injEq] at h
    rw [← h.1, setMaster_self, setMaster_self]
    exact hpos

/-- A body alone in the scene at (800, 300) and the step 1 satisfy the hypotheses of the
amended C11; `advance` returns and leaves the body at (-99, 300). -/
theorem MasterShape.advance_wrap_right_witness :
    ((1 : Int) ≠ 0 ∧ (700 : ℚ) < 800 ∧ (-100 : ℚ) ≤ 300 ∧ (300 : ℚ) ≤ 700) ∧
    (MasterShape.advance ratTrig 2147483647 (some ⟨[0], 100⟩)
        (fun _ => ⟨.MasterShape, 0, ⟨⟨800, 300⟩, 0, .disk 10, .Ok⟩⟩) 0 1
        ⟨[], [], none⟩).map (fun r => (r.1 0).master.pos) =
      some ⟨-99, 300⟩ := by
  refine ⟨⟨by decide, by norm_num, by norm_num, by norm_num⟩, ?_⟩
  have hthm := MasterShape.advance_wrap_right ratTrig 2147483647 ⟨[0], 100⟩
    (fun _ => ⟨.MasterShape, 0, ⟨⟨800, 300⟩, 0, .disk 10, .Ok⟩⟩) 0 1 ⟨[], [], none⟩
    (by decide) (by norm_num) (by norm_num) (by norm_num)
  cases hrun : MasterShape.advance ratTrig 2147483647 (some ⟨[0], 100⟩)
      (fun _ => ⟨.MasterShape, 0, ⟨⟨800, 300⟩, 0, .disk 10, .Ok⟩⟩) 0 1 ⟨[], [], none⟩ with
  | none =>
    have hsome := hthm.2
    rw [hrun] at hsome
    simp [LogicalScene.intersect1, LogicalScene.intersect1Loop] at hsome
  | some r =>
    obtain ⟨world', s'⟩ := r
    simp only [Option.map_some', Option.some.injEq]
    exact hthm.1 world' s' hrun

/-- C12. A step of 0 changes nothing: for a body of any class (`MasterShape`, `Asteroid`,
`NiceAsteroid`, `SpaceTruck`, `Enterprise`), any state of the scene and any draws,
`advance(0)` returns with every body as it was (position, rotation, shape with the angle of
its transformations, collision state) and the draws as they were, also when the pointer
`logical_scene` is null, which a query of the scene would not survive. -/
theorem Body.advance_zero {K : Type} [LinearOrderedField K] (T : Trig K) (RAND_MAX : Nat)
    (logical_scene : Option LogicalScene) (world : Ptr → Body K) (self : Ptr) (s : Draws K) :
    Body.advance T RAND_MAX logical_scene world self 0 s = some (world, s) ∧
    MasterShape.advance T RAND_MAX logical_scene world self 0 s = some (world, s) ∧
    Asteroid.advance T RAND_MAX logical_scene world self 0 s = some (world, s) ∧
    NiceAsteroid.advance T RAND_MAX logical_scene world self 0 s = some (world, s) ∧
    SpaceTruck.advance T RAND_MAX logical_scene world self 0 s = some (world, s) ∧
    Enterprise.advance T RAND_MAX logical_scene world self 0 s = some (world, s) := by
  have h1 : MasterShape.advance T RAND_MAX logical_scene world self 0 s = some (world, s) := by
    rw [MasterShape.advance, if_pos rfl]
  have h2 : Asteroid.advance T RAND_MAX logical_scene world self 0 s = some (world, s) := by
    rw [Asteroid.advance, if_pos rfl]
  have h3 : NiceAsteroid.advance T RAND_MAX logical_scene world self 0 s = some (world, s) := by
    rw [NiceAsteroid.advance, if_pos rfl]
  have h4 : SpaceTruck.advance T RAND_MAX logical_scene world self 0 s = some (world, s) := by
    rw [SpaceTruck.advance, if_pos rfl]
  have h5 : Enterprise.advance T RAND_MAX logical_scene world self 0 s = some (world, s) := by
    rw [Enterprise.advance, if_pos rfl]
  refine ⟨?_, h1, h2, h3, h4, h5⟩
  unfold Body.advance
  cases (world self).cls
  · exact h1
  · exact h2
  · exact h3
  · exact h4
  · exact h5

end Collider
